import Mathlib

/-!
Shallow embedding of the parameter-editor component in `src/index.tsx`.

The editing core is pure: a reducer over the working value list, a
required-field validator producing an error record, an optimistic
per-parameter error clearing on change, a renderer registry merged by
object spread, and an imperative facade (`getModel`, `reset`).  React
state is modelled by an explicit `Session` record and host events by a
`step` function; JavaScript objects used as records (`Record<number,
string>`, `Record<string, FC>`) are modelled as association lists with
assignment/delete/lookup operations mirroring JS semantics.
-/

namespace Selsup

/-- Type tag and type-specific constraints of a parameter
(src/index.tsx lines 16-33).  The numeric bounds are informational data
never read by the core; they are embedded as integers. -/
inductive ParamType where
  | string
  | number (min max : Option Int)
  | select (options : List String)
  deriving DecidableEq

/-- A parameter descriptor: integer id, display name, type tag
(src/index.tsx lines 16-33). -/
structure Param where
  id : Int
  name : String
  type : ParamType
  deriving DecidableEq

/-- A parameter value: pair of parameter id and value-as-text
(src/index.tsx lines 35-38). -/
structure ParamValue where
  paramId : Int
  value : String
  deriving DecidableEq

/-- An opaque color record round-tripped by the core
(src/index.tsx lines 40-44). -/
structure Color where
  id : Int
  name : String
  hex : String
  deriving DecidableEq

/-- The model: parameter values plus auxiliary colors
(src/index.tsx lines 46-49). -/
structure Model where
  paramValues : List ParamValue
  colors : List Color
  deriving DecidableEq

/-- Reducer actions (src/index.tsx lines 57-59). -/
inductive Action where
  | change (paramId : Int) (value : String)
  | reset (initial : List ParamValue)
  deriving DecidableEq

/-- The reducer state: the working list of parameter values
(src/index.tsx line 61). -/
abbrev State := List ParamValue

/-- The reducer (src/index.tsx lines 62-71).  CHANGE maps over the list
replacing the value of entries whose paramId matches; RESET replaces the
whole state with a copy of the supplied initial list. -/
def reducer (state : State) (action : Action) : State :=
  match action with
  | .change paramId value =>
      state.map fun pv => if pv.paramId == paramId then { pv with value := value } else pv
  | .reset initial => initial

/-- JS-object assignment `m[k] = v` on a record modelled as an
association list: overwrites the entry in place when the key exists,
appends otherwise. -/
def recSet {κ α : Type} [BEq κ] (m : List (κ × α)) (k : κ) (v : α) : List (κ × α) :=
  if m.any (fun kv => kv.1 == k) then m.map fun kv => if kv.1 == k then (k, v) else kv
  else m ++ [(k, v)]

/-- JS-object lookup `m[k]`: the value stored under key `k`, if any. -/
def recGet {κ α : Type} [BEq κ] (m : List (κ × α)) (k : κ) : Option α :=
  (m.find? fun kv => kv.1 == k).map Prod.snd

/-- JS `delete m[k]`: removes the entry stored under key `k`. -/
def recDelete {κ α : Type} [BEq κ] (m : List (κ × α)) (k : κ) : List (κ × α) :=
  m.filter fun kv => kv.1 != k

/-- The error record `Record<number, string>` (src/index.tsx line 213). -/
abbrev ErrorMap := List (Int × String)

/-- The validation pass (src/index.tsx lines 226-233): builds a fresh
error record with an entry `"Required field"` for every parameter value
whose text is falsy (the empty string), and returns it together with the
boolean `Object.keys(errs).length === 0`. -/
def validate (values : State) : ErrorMap × Bool :=
  let errs := values.foldl
    (fun errs pv => if pv.value == "" then recSet errs pv.paramId "Required field" else errs) []
  (errs, errs.length == 0)

/-- The change handler (src/index.tsx lines 235-242): dispatches CHANGE
to the reducer and unconditionally deletes the changed parameter's entry
from the error record. -/
def handleChange (values : State) (errors : ErrorMap) (paramId : Int) (value : String) :
    State × ErrorMap :=
  (reducer values (.change paramId value), recDelete errors paramId)

/-- The initial working values (src/index.tsx lines 207-210): one entry
per parameter, taking the value of the first model entry with a matching
paramId, defaulting to the empty string.  This expression is re-evaluated
from the current props on every render. -/
def initialValues (params : List Param) (model : Model) : List ParamValue :=
  params.map fun param =>
    match model.paramValues.find? (fun pv => pv.paramId == param.id) with
    | some found => { paramId := param.id, value := found.value }
    | none => { paramId := param.id, value := "" }

/-- A rendering strategy (a React function component in the source,
opaque to the core): one of the three built-in editors or an arbitrary
caller-supplied component identified by a tag. -/
inductive Renderer where
  | stringParamEditor
  | numberParamEditor
  | selectParamEditor
  | custom (tag : Nat)
  deriving DecidableEq

/-- The renderer registry `Record<string, FC<RendererProps>>`. -/
abbrev RendererMap := List (String × Renderer)

/-- The built-in registry (src/index.tsx lines 192-196). -/
def defaultRenderers : RendererMap :=
  [("string", .stringParamEditor), ("number", .numberParamEditor), ("select", .selectParamEditor)]

/-- JS object spread `{ ...base, ...override }`: each entry of the
override is assigned into the base record in order. -/
def spreadMerge (base override : RendererMap) : RendererMap :=
  override.foldl (fun acc kv => recSet acc kv.1 kv.2) base

/-- The effective registry (src/index.tsx lines 244-246):
`renderers ? { ...defaultRenderers, ...renderers } : defaultRenderers`. -/
def useRenders (renderers : Option RendererMap) : RendererMap :=
  match renderers with
  | some r => spreadMerge defaultRenderers r
  | none => defaultRenderers

/-- The live state of one editing session: the current props
(`params`, `model`) and the two pieces of React state (`values` from
`useReducer`, `errors` from `useState`). -/
structure Session where
  params : List Param
  model : Model
  values : State
  errors : ErrorMap
  deriving DecidableEq

/-- Mounting the component (src/index.tsx lines 207-213): `useReducer`
seeds the working values from the props supplied at construction, and the
error record starts empty. -/
def initSession (params : List Param) (model : Model) : Session :=
  { params := params, model := model, values := initialValues params model, errors := [] }

/-- Host-triggered events on a running session: a user edit routed
through `handleChange`, the Reset transition (the Reset button at
src/index.tsx lines 274-278, and `reset()` on the imperative handle when
its closure is current), the Validate button (lines 266-273), and the
host re-rendering the component with new props. -/
inductive Event where
  | change (paramId : Int) (value : String)
  | reset
  | validateClick
  | setProps (params : List Param) (model : Model)
  deriving DecidableEq

/-- One session step.  Note that the Reset transition dispatches
`RESET` with `initial` bound to the `initialValues` expression, which is
re-evaluated from the session's current props (src/index.tsx lines
207-210 and 275), and that new props replace `params`/`model` without
touching the reducer state (`useReducer` ignores its initial argument
after the first render). -/
def step (s : Session) (e : Event) : Session :=
  match e with
  | .change paramId value =>
      let r := handleChange s.values s.errors paramId value
      { s with values := r.1, errors := r.2 }
  | .reset =>
      { s with values := reducer s.values (.reset (initialValues s.params s.model)) }
  | .validateClick =>
      { s with errors := (validate s.values).1 }
  | .setProps params model =>
      { s with params := params, model := model }

/-- Folding a list of events over a session. -/
def steps (s : Session) (es : List Event) : Session := es.foldl step s

/-- Applying a list of Change transitions, given as (paramId, value)
pairs. -/
def applyChanges (s : Session) (cs : List (Int × String)) : Session :=
  steps s (cs.map fun c => Event.change c.1 c.2)

/-- The imperative facade's `getModel` (src/index.tsx line 218): the
current working values together with the current props' colors. -/
def getModel (s : Session) : Model :=
  { paramValues := s.values, colors := s.model.colors }

/-- Whether an event is a host prop update (as opposed to one of the
core's own transitions). -/
def Event.isSetProps : Event → Bool
  | .setProps _ _ => true
  | _ => false

/-- Sample schema used by concrete witnesses: one string parameter. -/
def sampleParams : List Param := [{ id := 1, name := "Label", type := ParamType.string }]

/-- Sample initial model used by concrete witnesses. -/
def sampleModel : Model := { paramValues := [{ paramId := 1, value := "hi" }], colors := [] }

/-- A different model, used to exercise prop updates on a running
session. -/
def sampleModel' : Model :=
  { paramValues := [{ paramId := 1, value := "bye" }]
    colors := [{ id := 1, name := "red", hex := "#f00" }] }

/-- Sample mounted session. -/
def sampleSession : Session := initSession sampleParams sampleModel

/-! ### Lemmas about the JS-record operations -/

theorem recGet_nil {κ α : Type} [BEq κ] (k : κ) :
    recGet ([] : List (κ × α)) k = none := rfl

theorem recGet_cons_self {κ α : Type} [BEq κ] [LawfulBEq κ]
    (kv : κ × α) (rest : List (κ × α)) :
    recGet (kv :: rest) kv.1 = some kv.2 := by
  unfold recGet
  rw [List.find?_cons_of_pos _ (by simp)]
  rfl

theorem recGet_cons_ne {κ α : Type} [BEq κ] [LawfulBEq κ]
    (kv : κ × α) (rest : List (κ × α)) (k : κ) (h : kv.1 ≠ k) :
    recGet (kv :: rest) k = recGet rest k := by
  unfold recGet
  rw [List.find?_cons_of_neg _ (by simp [h])]

theorem recGet_append {κ α : Type} [BEq κ]
    (m m' : List (κ × α)) (k : κ) :
    recGet (m ++ m') k = ((m.find? fun kv => kv.1 == k).or (m'.find? fun kv => kv.1 == k)).map Prod.snd := by
  unfold recGet
  rw [List.find?_append]

theorem recGet_eq_none_of_any_false {κ α : Type} [BEq κ]
    (m : List (κ × α)) (k : κ) (h : m.any (fun kv => kv.1 == k) = false) :
    recGet m k = none := by
  unfold recGet
  rw [List.find?_eq_none.mpr (List.any_eq_false.mp h)]
  rfl

theorem recGet_map_overwrite_self {κ α : Type} [BEq κ] [LawfulBEq κ]
    (m : List (κ × α)) (k : κ) (v : α) (h : m.any (fun kv => kv.1 == k) = true) :
    recGet (m.map fun kv => if kv.1 == k then (k, v) else kv) k = some v := by
  induction m with
  | nil => simp at h
  | cons kv rest ih =>
      by_cases hk : kv.1 = k
      · have : (if (kv.1 == k) = true then (k, v) else kv) = (k, v) := by simp [hk]
        rw [List.map_cons, this]
        exact recGet_cons_self (k, v) _
      · have hb : (kv.1 == k) = false := beq_eq_false_iff_ne.mpr hk
        rw [List.map_cons, if_neg (by simp [hb])]
        rw [recGet_cons_ne _ _ _ hk]
        refine ih ?_
        simpa [List.any_cons, hb] using h

theorem recGet_map_overwrite_ne {κ α : Type} [BEq κ] [LawfulBEq κ]
    (m : List (κ × α)) (k k' : κ) (v : α) (h : k' ≠ k) :
    recGet (m.map fun kv => if kv.1 == k then (k, v) else kv) k' = recGet m k' := by
  induction m with
  | nil => rfl
  | cons kv rest ih =>
      rw [List.map_cons]
      by_cases hk : kv.1 = k
      · rw [if_pos (by simp [hk])]
        rw [recGet_cons_ne (k, v) _ _ (fun hh => h hh.symm)]
        rw [recGet_cons_ne kv _ _ (by rw [hk]; exact fun hh => h hh.symm)]
        exact ih
      · rw [if_neg (by simp [hk])]
        by_cases hkk : kv.1 = k'
        · rw [← hkk, recGet_cons_self, recGet_cons_self]
        · rw [recGet_cons_ne _ _ _ hkk, recGet_cons_ne _ _ _ hkk]
          exact ih

theorem recGet_recSet_self {κ α : Type} [BEq κ] [LawfulBEq κ]
    (m : List (κ × α)) (k : κ) (v : α) :
    recGet (recSet m k v) k = some v := by
  unfold recSet
  by_cases ha : m.any (fun kv => kv.1 == k)
  · rw [if_pos ha]
    exact recGet_map_overwrite_self m k v ha
  · rw [if_neg ha]
    rw [Bool.not_eq_true] at ha
    rw [recGet_append, List.find?_eq_none.mpr (List.any_eq_false.mp ha)]
    simp [List.find?]

theorem recGet_recSet_ne {κ α : Type} [BEq κ] [LawfulBEq κ]
    (m : List (κ × α)) (k k' : κ) (v : α) (h : k' ≠ k) :
    recGet (recSet m k v) k' = recGet m k' := by
  unfold recSet
  by_cases ha : m.any (fun kv => kv.1 == k)
  · rw [if_pos ha]
    exact recGet_map_overwrite_ne m k k' v h
  · rw [if_neg ha]
    rw [recGet_append]
    have : List.find? (fun kv => kv.1 == k') [(k, v)] = none := by
      simp [List.find?, beq_eq_false_iff_ne.mpr (fun hh => h hh.symm)]
    rw [this]
    cases hfind : List.find? (fun kv => kv.1 == k') m <;> simp [recGet, hfind, Option.or]

theorem recSet_ne_nil {κ α : Type} [BEq κ]
    (m : List (κ × α)) (k : κ) (v : α) :
    recSet m k v ≠ [] := by
  unfold recSet
  by_cases ha : m.any (fun kv => kv.1 == k)
  · cases m with
    | nil => simp at ha
    | cons kv rest => simp [ha]
  · simp [ha]

theorem recGet_recDelete_self {κ α : Type} [BEq κ] [LawfulBEq κ]
    (m : List (κ × α)) (k : κ) :
    recGet (recDelete m k) k = none := by
  induction m with
  | nil => rfl
  | cons kv rest ih =>
      by_cases hk : kv.1 = k
      · simpa [recDelete, hk] using ih
      · have h2 : recDelete (kv :: rest) k = kv :: recDelete rest k := by
          simp [recDelete, hk]
        rw [h2, recGet_cons_ne _ _ _ hk]
        exact ih

theorem recGet_recDelete_ne {κ α : Type} [BEq κ] [LawfulBEq κ]
    (m : List (κ × α)) (k k' : κ) (h : k' ≠ k) :
    recGet (recDelete m k) k' = recGet m k' := by
  induction m with
  | nil => rfl
  | cons kv rest ih =>
      by_cases hk : kv.1 = k
      · have h2 : recDelete (kv :: rest) k = recDelete rest k := by
          simp [recDelete, hk]
        rw [h2, recGet_cons_ne _ _ _ (by rw [hk]; exact fun hh => h hh.symm)]
        exact ih
      · have h2 : recDelete (kv :: rest) k = kv :: recDelete rest k := by
          simp [recDelete, hk]
        rw [h2]
        by_cases hkk : kv.1 = k'
        · rw [← hkk, recGet_cons_self, recGet_cons_self]
        · rw [recGet_cons_ne _ _ _ hkk, recGet_cons_ne _ _ _ hkk]
          exact ih

theorem recGet_eq_none_of_not_mem_keys {κ α : Type} [BEq κ] [LawfulBEq κ]
    (m : List (κ × α)) (k : κ) (h : k ∉ m.map Prod.fst) :
    recGet m k = none := by
  induction m with
  | nil => rfl
  | cons kv rest ih =>
      simp only [List.map_cons, List.mem_cons, not_or] at h
      rw [recGet_cons_ne _ _ _ (fun hh => h.1 hh.symm)]
      exact ih h.2

/-! ### Lemmas about the validator -/

theorem validate_fst (values : State) :
    (validate values).1 = values.foldl
      (fun errs pv => if pv.value == "" then recSet errs pv.paramId "Required field" else errs)
      [] := rfl

theorem validate_snd (values : State) :
    (validate values).2 = ((validate values).1.length == 0) := rfl

theorem validate_foldl_get (values : State) (acc : ErrorMap) (id : Int) :
    recGet (values.foldl
        (fun errs pv => if pv.value == "" then recSet errs pv.paramId "Required field" else errs)
        acc) id =
      if ∃ pv ∈ values, pv.paramId = id ∧ pv.value = "" then some "Required field"
      else recGet acc id := by
  induction values generalizing acc with
  | nil => simp
  | cons pv rest ih =>
      rw [List.foldl_cons]
      by_cases hrest : ∃ q ∈ rest, q.paramId = id ∧ q.value = ""
      · have hcons : ∃ q ∈ pv :: rest, q.paramId = id ∧ q.value = "" := by
          obtain ⟨q, hq, h1, h2⟩ := hrest
          exact ⟨q, List.mem_cons_of_mem _ hq, h1, h2⟩
        by_cases hv : pv.value = ""
        · rw [if_pos (by simp [hv]), ih, if_pos hrest, if_pos hcons]
        · rw [if_neg (by simp [hv]), ih, if_pos hrest, if_pos hcons]
      · by_cases hv : pv.value = ""
        · by_cases hid : pv.paramId = id
          · have hcons : ∃ q ∈ pv :: rest, q.paramId = id ∧ q.value = "" :=
              ⟨pv, List.mem_cons_self pv rest, hid, hv⟩
            rw [if_pos (by simp [hv]), ih, if_neg hrest, if_pos hcons, ← hid,
              recGet_recSet_self]
          · have hcons : ¬ ∃ q ∈ pv :: rest, q.paramId = id ∧ q.value = "" := by
              rintro ⟨q, hq, h1, h2⟩
              rcases List.mem_cons.mp hq with rfl | hq
              · exact hid h1
              · exact hrest ⟨q, hq, h1, h2⟩
            rw [if_pos (by simp [hv]), ih, if_neg hrest, if_neg hcons,
              recGet_recSet_ne _ _ _ _ (fun hh => hid hh.symm)]
        · have hcons : ¬ ∃ q ∈ pv :: rest, q.paramId = id ∧ q.value = "" := by
            rintro ⟨q, hq, h1, h2⟩
            rcases List.mem_cons.mp hq with rfl | hq
            · exact hv h2
            · exact hrest ⟨q, hq, h1, h2⟩
          rw [if_neg (by simp [hv]), ih, if_neg hrest, if_neg hcons]

theorem validate_foldl_no_empty (values : State) (acc : ErrorMap)
    (h : ∀ pv ∈ values, pv.value ≠ "") :
    values.foldl
      (fun errs pv => if pv.value == "" then recSet errs pv.paramId "Required field" else errs)
      acc = acc := by
  induction values generalizing acc with
  | nil => rfl
  | cons pv rest ih =>
      rw [List.foldl_cons, if_neg (by simp [h pv (List.mem_cons_self pv rest)])]
      exact ih _ (fun q hq => h q (List.mem_cons_of_mem _ hq))

/-! ### Lemmas about session steps -/

theorem applyChanges_cons (s : Session) (c : Int × String) (cs : List (Int × String)) :
    applyChanges s (c :: cs) = applyChanges (step s (Event.change c.1 c.2)) cs := rfl

theorem applyChanges_props (s : Session) (cs : List (Int × String)) :
    (applyChanges s cs).params = s.params ∧ (applyChanges s cs).model = s.model := by
  induction cs generalizing s with
  | nil => exact ⟨rfl, rfl⟩
  | cons c rest ih =>
      rw [applyChanges_cons]
      exact ih (step s (Event.change c.1 c.2))

theorem step_model_of_not_setProps (s : Session) (e : Event) (h : e.isSetProps = false) :
    (step s e).model = s.model := by
  cases e with
  | change pid v => rfl
  | reset => rfl
  | validateClick => rfl
  | setProps p m => simp [Event.isSetProps] at h

theorem steps_cons (s : Session) (e : Event) (es : List Event) :
    steps s (e :: es) = steps (step s e) es := rfl

theorem steps_model_of_no_setProps (s : Session) (es : List Event)
    (h : ∀ e ∈ es, e.isSetProps = false) :
    (steps s es).model = s.model := by
  induction es generalizing s with
  | nil => rfl
  | cons e rest ih =>
      rw [steps_cons]
      exact (ih (step s e) (fun x hx => h x (List.mem_cons_of_mem _ hx))).trans
        (step_model_of_not_setProps s e (h e (List.mem_cons_self e rest)))

theorem reducer_change_absent (st : State) (id : Int) (v : String)
    (h : ∀ pv ∈ st, pv.paramId ≠ id) :
    reducer st (.change id v) = st := by
  induction st with
  | nil => rfl
  | cons pv rest ih =>
      show (pv :: rest).map
          (fun q => if q.paramId == id then { q with value := v } else q) = pv :: rest
      rw [List.map_cons]
      have hpv : (if (pv.paramId == id) = true then ({ pv with value := v } : ParamValue)
          else pv) = pv :=
        if_neg (by simp [h pv (List.mem_cons_self pv rest)])
      rw [hpv]
      have h2 : reducer rest (.change id v) = rest :=
        ih (fun q hq => h q (List.mem_cons_of_mem _ hq))
      exact congrArg (pv :: ·) h2

theorem spreadMerge_get (ov : RendererMap) (base : RendererMap)
    (hnd : (ov.map Prod.fst).Nodup) (t : String) :
    recGet (spreadMerge base ov) t =
      if (recGet ov t).isSome then recGet ov t else recGet base t := by
  induction ov generalizing base with
  | nil =>
      rw [show spreadMerge base ([] : RendererMap) = base from rfl, recGet_nil]
      simp
  | cons kv rest ih =>
      have hnd' : (rest.map Prod.fst).Nodup := (List.nodup_cons.mp hnd).2
      have hk : kv.1 ∉ rest.map Prod.fst := (List.nodup_cons.mp hnd).1
      rw [show spreadMerge base (kv :: rest) = spreadMerge (recSet base kv.1 kv.2) rest from rfl,
        ih _ hnd']
      by_cases ht : t = kv.1
      · subst ht
        rw [recGet_eq_none_of_not_mem_keys rest kv.1 hk, recGet_cons_self, recGet_recSet_self]
        simp
      · rw [recGet_cons_ne kv rest t (fun hh => ht hh.symm),
          recGet_recSet_ne base kv.1 t kv.2 ht]

/-! ### The claims -/

/-- Claim C1 counterexample: the Reset snapshot is NOT fixed at mount.
Mount with `sampleModel`, let the host re-render with `sampleModel'`, and
trigger Reset: the working values become the values derived from the new
model, not from the Model supplied at construction. -/
theorem C1_counterexample :
    (step (step (initSession sampleParams sampleModel)
        (Event.setProps sampleParams sampleModel')) Event.reset).values
      ≠ initialValues sampleParams sampleModel := by
  decide

/-- Claim C1 (amended): `initialValues` is re-evaluated from the current
props on every render, so after any Change transitions and a later prop
update to `(P', M')`, the Reset transition restores the values derived
from the latest props, `initialValues P' M'`. -/
theorem C1_reset_uses_latest_props (P P' : List Param) (M M' : Model)
    (cs : List (Int × String)) :
    (step (step (applyChanges (initSession P M) cs)
        (Event.setProps P' M')) Event.reset).values = initialValues P' M' := rfl

/-- Claim C2: for a session whose props are unchanged since construction,
Reset after any finite sequence of Change transitions (any order, any
length) restores the EditState to exactly the initial snapshot. -/
theorem C2_reset_restores_initial (P : List Param) (M : Model)
    (cs : List (Int × String)) :
    (step (applyChanges (initSession P M) cs) Event.reset).values = initialValues P M := by
  show initialValues (applyChanges (initSession P M) cs).params
      (applyChanges (initSession P M) cs).model = initialValues P M
  rw [(applyChanges_props (initSession P M) cs).1,
    (applyChanges_props (initSession P M) cs).2]
  rfl

/-- Claim C3: the starting EditState has exactly one ParameterValue per
parameter in schema order; the i-th entry carries the i-th parameter's
id, takes its value from a model entry with a matching paramId when one
exists, and is the empty string otherwise. -/
theorem C3_initial_seed (params : List Param) (model : Model) (i : Nat)
    (h : i < params.length) :
    (initSession params model).values.length = params.length ∧
    ∃ p pv, params[i]? = some p ∧ (initSession params model).values[i]? = some pv ∧
      pv.paramId = p.id ∧
      ((∃ mv ∈ model.paramValues, mv.paramId = p.id) →
        ∃ mv ∈ model.paramValues, mv.paramId = p.id ∧ pv.value = mv.value) ∧
      ((¬ ∃ mv ∈ model.paramValues, mv.paramId = p.id) → pv.value = "") := by
  refine ⟨by simp [initSession, initialValues], ?_⟩
  have hv : (initSession params model).values[i]? =
      some (match model.paramValues.find? (fun mv => mv.paramId == params[i].id) with
        | some found => ({ paramId := params[i].id, value := found.value } : ParamValue)
        | none => { paramId := params[i].id, value := "" }) := by
    show (initialValues params model)[i]? = _
    rw [initialValues, List.getElem?_map, List.getElem?_eq_getElem h]
    rfl
  cases hfind : model.paramValues.find? (fun mv => mv.paramId == params[i].id) with
  | some mv =>
      rw [hfind] at hv
      have hmv : mv.paramId = params[i].id := by
        have := List.find?_some hfind
        simpa using this
      refine ⟨params[i], { paramId := params[i].id, value := mv.value },
        List.getElem?_eq_getElem h, hv, rfl, ?_, ?_⟩
      · intro _
        exact ⟨mv, List.mem_of_find?_eq_some hfind, hmv, rfl⟩
      · intro hne
        exact absurd ⟨mv, List.mem_of_find?_eq_some hfind, hmv⟩ hne
  | none =>
      rw [hfind] at hv
      refine ⟨params[i], { paramId := params[i].id, value := "" },
        List.getElem?_eq_getElem h, hv, rfl, ?_, fun _ => rfl⟩
      rintro ⟨mv, hmem, heq⟩
      exact absurd (by simp [heq] : (mv.paramId == params[i].id) = true)
        (by simpa using List.find?_eq_none.mp hfind mv hmem)

/-- Claim C3 witness: the concrete sample schema and model at index 0. -/
theorem C3_witness :
    0 < sampleParams.length ∧
    ((initSession sampleParams sampleModel).values.length = sampleParams.length ∧
     ∃ p pv, sampleParams[0]? = some p ∧
       (initSession sampleParams sampleModel).values[0]? = some pv ∧
       pv.paramId = p.id ∧
       ((∃ mv ∈ sampleModel.paramValues, mv.paramId = p.id) →
         ∃ mv ∈ sampleModel.paramValues, mv.paramId = p.id ∧ pv.value = mv.value) ∧
       ((¬ ∃ mv ∈ sampleModel.paramValues, mv.paramId = p.id) → pv.value = "")) :=
  ⟨by decide, C3_initial_seed sampleParams sampleModel 0 (by decide)⟩

/-- Claim C4: Change(id, v) followed by getModel yields paramValues in
which entries for id hold v, all other entries are unchanged, and the
original ordering and entry count are preserved. -/
theorem C4_change_frame (s : Session) (id : Int) (v : String)
    (h : ∃ pv ∈ s.values, pv.paramId = id) :
    ((getModel (step s (Event.change id v))).paramValues.length = s.values.length) ∧
    (∃ pv ∈ (getModel (step s (Event.change id v))).paramValues,
      pv.paramId = id ∧ pv.value = v) ∧
    ∀ i, i < s.values.length →
      ∃ pv pv', s.values[i]? = some pv ∧
        (getModel (step s (Event.change id v))).paramValues[i]? = some pv' ∧
        pv'.paramId = pv.paramId ∧
        (pv.paramId = id → pv'.value = v) ∧
        (pv.paramId ≠ id → pv' = pv) := by
  have hmap : (getModel (step s (Event.change id v))).paramValues =
      s.values.map (fun q => if q.paramId == id then { q with value := v } else q) := rfl
  refine ⟨by rw [hmap]; simp, ?_, ?_⟩
  · obtain ⟨pv, hmem, hid⟩ := h
    refine ⟨{ pv with value := v }, ?_, hid, rfl⟩
    rw [hmap]
    have heq : ({ pv with value := v } : ParamValue) =
        (fun q => if q.paramId == id then { q with value := v } else q) pv := by
      simp [hid]
    rw [heq]
    exact List.mem_map_of_mem _ hmem
  · intro i hi
    have hsv : s.values[i]? = some s.values[i] := List.getElem?_eq_getElem hi
    refine ⟨s.values[i],
      (fun q => if q.paramId == id then { q with value := v } else q) s.values[i],
      hsv, ?_, ?_, ?_, ?_⟩
    · rw [hmap, List.getElem?_map, hsv]
      rfl
    · by_cases hq : s.values[i].paramId = id <;> simp [hq]
    · intro hq; simp [hq]
    · intro hq; simp [hq]

/-- Claim C4 witness: one concrete change on the sample session. -/
theorem C4_witness :
    (∃ pv ∈ sampleSession.values, pv.paramId = 1) ∧
    (((getModel (step sampleSession (Event.change 1 "x"))).paramValues.length
        = sampleSession.values.length) ∧
     (∃ pv ∈ (getModel (step sampleSession (Event.change 1 "x"))).paramValues,
       pv.paramId = 1 ∧ pv.value = "x") ∧
     ∀ i, i < sampleSession.values.length →
       ∃ pv pv', sampleSession.values[i]? = some pv ∧
         (getModel (step sampleSession (Event.change 1 "x"))).paramValues[i]? = some pv' ∧
         pv'.paramId = pv.paramId ∧
         (pv.paramId = 1 → pv'.value = "x") ∧
         (pv.paramId ≠ 1 → pv' = pv)) :=
  ⟨by decide, C4_change_frame sampleSession 1 "x" (by decide)⟩

/-- Claim C5: when the changed paramId matches no entry, Change is a
silent no-op: the resulting EditState equals the input state. -/
theorem C5_change_unknown_noop (s : Session) (id : Int) (v : String)
    (h : ∀ pv ∈ s.values, pv.paramId ≠ id) :
    (step s (Event.change id v)).values = s.values :=
  reducer_change_absent s.values id v h

/-- Claim C5 witness: a change to the absent id 2 on the sample session. -/
theorem C5_witness :
    (∀ pv ∈ sampleSession.values, pv.paramId ≠ 2) ∧
    (step sampleSession (Event.change 2 "zz")).values = sampleSession.values :=
  ⟨by decide, C5_change_unknown_noop sampleSession 2 "zz" (by decide)⟩

/-- Claim C6: validate is false iff some current value is the empty
string, and the produced ErrorMap holds exactly the ids of empty-valued
entries, each mapped to "Required field"; nothing else (in particular no
range check) influences the result. -/
theorem C6_validate_required_only (values : State) :
    ((validate values).2 = false ↔ ∃ pv ∈ values, pv.value = "") ∧
    ∀ id, recGet (validate values).1 id =
      if ∃ pv ∈ values, pv.paramId = id ∧ pv.value = "" then some "Required field"
      else none := by
  constructor
  · rw [validate_snd]
    constructor
    · intro hfalse
      by_contra hne
      push_neg at hne
      rw [validate_fst, validate_foldl_no_empty values [] hne] at hfalse
      simp at hfalse
    · rintro ⟨pv, hmem, hval⟩
      have hg : recGet (validate values).1 pv.paramId = some "Required field" := by
        rw [validate_fst, validate_foldl_get, if_pos ⟨pv, hmem, rfl, hval⟩]
      have hnil : (validate values).1 ≠ [] := by
        intro hn
        rw [hn] at hg
        simp [recGet] at hg
      have hlen : (validate values).1.length ≠ 0 :=
        fun hl => hnil (List.length_eq_zero.mp hl)
      exact beq_eq_false_iff_ne.mpr hlen
  · intro id
    rw [validate_fst, validate_foldl_get]
    rfl

/-- Claim C7: a Change with a non-empty value removes that parameter's
error entry (without re-running validation) and leaves every other
parameter's error entry unchanged. -/
theorem C7_change_clears_error (values : State) (errors : ErrorMap) (id : Int) (v : String)
    (h : v ≠ "") :
    recGet (handleChange values errors id v).2 id = none ∧
    ∀ id', id' ≠ id → recGet (handleChange values errors id v).2 id' = recGet errors id' :=
  ⟨recGet_recDelete_self errors id, fun id' hne => recGet_recDelete_ne errors id id' hne⟩

/-- Claim C7 witness: clearing the sample error entry with value "x". -/
theorem C7_witness :
    ("x" : String) ≠ "" ∧
    (recGet (handleChange sampleSession.values
        [((1 : Int), "Required field")] 1 "x").2 1 = none ∧
     ∀ id', id' ≠ 1 →
       recGet (handleChange sampleSession.values
         [((1 : Int), "Required field")] 1 "x").2 id' =
         recGet ([((1 : Int), "Required field")] : ErrorMap) id') :=
  ⟨by decide,
    C7_change_clears_error sampleSession.values [((1 : Int), "Required field")] 1 "x"
      (by decide)⟩

/-- Claim C8 counterexample: after the host re-renders the running
session with a Model whose colors differ, getModel returns the new
colors, not the colors of the Model supplied at construction. -/
theorem C8_counterexample :
    (getModel (step (initSession sampleParams sampleModel)
        (Event.setProps sampleParams sampleModel'))).colors ≠ sampleModel.colors := by
  decide

/-- Claim C8 (amended): for as long as the host has not supplied new
props, getModel's colors are exactly the construction Model's colors: no
core transition (Change, Reset, Validate) reads or transforms them. -/
theorem C8_colors_passthrough (P : List Param) (M : Model) (es : List Event)
    (h : ∀ e ∈ es, e.isSetProps = false) :
    (getModel (steps (initSession P M) es)).colors = M.colors := by
  show (steps (initSession P M) es).model.colors = M.colors
  rw [steps_model_of_no_setProps (initSession P M) es h]
  rfl

/-- Claim C8 witness: colors survive a change, a reset and a validation
on the sample session. -/
theorem C8_witness :
    (∀ e ∈ [Event.change 1 "x", Event.reset, Event.validateClick], e.isSetProps = false) ∧
    (getModel (steps (initSession sampleParams sampleModel)
        [Event.change 1 "x", Event.reset, Event.validateClick])).colors
      = sampleModel.colors :=
  ⟨by decide,
    C8_colors_passthrough sampleParams sampleModel
      [Event.change 1 "x", Event.reset, Event.validateClick] (by decide)⟩

/-- Claim C9: the effective registry is the union of the built-ins with
the caller override, override winning on shared tags and absent tags
keeping the built-in; with an override for "string" only, "number" and
"select" still dispatch to the built-ins and "string" to the override. -/
theorem C9_renderer_merge :
    (∀ ov : RendererMap, (ov.map Prod.fst).Nodup → ∀ t : String,
      recGet (useRenders (some ov)) t =
        if (recGet ov t).isSome then recGet ov t else recGet defaultRenderers t) ∧
    ∀ r : Renderer,
      recGet (useRenders (some [("string", r)])) "string" = some r ∧
      recGet (useRenders (some [("string", r)])) "number" = some Renderer.numberParamEditor ∧
      recGet (useRenders (some [("string", r)])) "select" = some Renderer.selectParamEditor := by
  constructor
  · intro ov hnd t
    exact spreadMerge_get ov defaultRenderers hnd t
  · intro r
    refine ⟨?_, ?_, ?_⟩ <;> rfl

/-- Claim C9 witness: an override for "string" only, looked up at
"number". -/
theorem C9_witness :
    (([(("string" : String), Renderer.custom 0)].map Prod.fst).Nodup) ∧
    recGet (useRenders (some [("string", Renderer.custom 0)])) "number" =
      (if (recGet ([(("string" : String), Renderer.custom 0)] : RendererMap) "number").isSome
       then recGet ([(("string" : String), Renderer.custom 0)] : RendererMap) "number"
       else recGet defaultRenderers "number") :=
  ⟨by decide, C9_renderer_merge.1 [("string", Renderer.custom 0)] (by decide) "number"⟩

/-- Claim C10: the optimistic clearing is unconditional on the new
value: a Change to the empty string still removes that parameter's error
entry. -/
theorem C10_clear_even_empty (values : State) (errors : ErrorMap) (id : Int)
    (h : (recGet errors id).isSome) :
    recGet (handleChange values errors id "").2 id = none :=
  recGet_recDelete_self errors id

/-- Claim C10 witness: clearing the sample error entry with the empty
string. -/
theorem C10_witness :
    (recGet ([((1 : Int), "Required field")] : ErrorMap) 1).isSome ∧
    recGet (handleChange sampleSession.values
      [((1 : Int), "Required field")] 1 "").2 1 = none :=
  ⟨by decide,
    C10_clear_even_empty sampleSession.values [((1 : Int), "Required field")] 1 (by decide)⟩

end Selsup
